import Mathlib

/-!
A shallow embedding of the resilient HTTP delivery engine of the
`connector-http` repository: the delivery client (`Client.Post`), the retry
engine (`RetryEngine.Do`, `isRetryable`, `calculateBackoff`), the response
writer's correlation-ID derivation (`generateCorrelationID`), and the
per-record orchestration (`Destination.Write`, `prepareRequestBody`).

Conventions of the embedding:
* Go durations (`time.Duration`, an `int64` of nanoseconds) are modelled as
  `Nat` nanoseconds; all values reachable from the validated configuration
  (`maxRetries ≤ 10`, positive sub-second-to-seconds backoff bases) are far
  from `int64` overflow, so unbounded naturals agree with the source on the
  reachable range.
* Go byte slices and strings are both modelled as `String`; a `nil` slice or
  `nil` interface value is `Option.none`, while a non-`nil` empty slice is
  `some ""` (the source distinguishes the two with `!= nil` checks).
* A Go `error` value is a `GoError`; `Option GoError` is a possibly-`nil`
  error. Each `fmt.Errorf` call site of the modelled code gets its own
  constructor so that error provenance is preserved exactly.
* External collaborators (request construction, the authentication manager,
  the pooled transport) are passed in as explicit outcome functions, since
  their behaviour is not part of this repository.
-/

namespace ConnectorHttp

/-- An HTTP response as consumed by the modelled components; only the status
code is inspected by the retry engine and the response router. -/
structure Response where
  statusCode : Nat
  deriving DecidableEq

/-- Go `error` values that flow through the modelled code.  `netErr` stands
for any error value whose dynamic type implements the `net.Error` interface
(e.g. `*net.OpError`, or the `*url.Error` returned by `http.Client.Do`);
every other constructor corresponds to one `fmt.Errorf` call site of the
source (none of which produce a value implementing `net.Error`, since
`fmt.Errorf` returns `*fmt.wrapError`), or to `ctx.Err()`. -/
inductive GoError where
  /-- an error implementing the `net.Error` interface -/
  | netErr (msg : String)
  /-- `Client.Post`: "failed to create request: %w" -/
  | createRequestFailed (inner : GoError)
  /-- `Client.Post`: "authentication failed: %w" -/
  | authFailed (inner : GoError)
  /-- `Client.Post`: "request failed: %w" -/
  | requestFailed (inner : GoError)
  /-- `RetryEngine.Do`: "non-retryable error: status %d" -/
  | nonRetryableStatus (status : Nat)
  /-- `RetryEngine.Do`: "non-retryable error: %w" -/
  | nonRetryableErr (inner : Option GoError)
  /-- `RetryEngine.Do`: "max retries (%d) exceeded, last status: %d" -/
  | maxRetriesStatus (maxRetries : Nat) (lastStatus : Nat)
  /-- `RetryEngine.Do`: "max retries (%d) exceeded: %w" -/
  | maxRetriesErr (maxRetries : Nat) (inner : Option GoError)
  /-- `ctx.Err()` observed during the backoff wait -/
  | ctxCanceled
  /-- `Destination.prepareRequestBody`: "record has no payload" -/
  | noPayload
  /-- `Destination.Write` router branch: "HTTP %d" -/
  | httpStatusErr (status : Nat)
  /-- `Destination.Write`: "failed to prepare request body: %w" -/
  | prepareFailed (inner : GoError)
  /-- `Destination.Write`: "HTTP request failed: %w" -/
  | httpRequestFailed (inner : GoError)
  /-- any other error produced by an external collaborator -/
  | other (msg : String)

/-- The Go type assertion `err.(net.Error)`: it succeeds exactly when the
error value itself implements `net.Error`; it does NOT unwrap wrapped
errors (that would require `errors.As`). -/
def GoError.isNetError : GoError → Bool
  | .netErr _ => true
  | _ => false

/-- Embeds `RetryConfig` (src/unnamed/part_004).  `MaxRetries` is a Go `int`
validated to lie in 0..10 by `Config.Validate`; durations are nanoseconds. -/
structure RetryConfig where
  maxRetries : Nat
  backoffBase : Nat
  backoffMax : Nat
  retryOn5xx : Bool
  retryOn429 : Bool
  retryOnNetworkErr : Bool
  deriving DecidableEq

namespace RetryEngine

/-- Embeds `RetryEngine.calculateBackoff` (src/unnamed/part_004 lines
163-173): `time.Duration(math.Pow(2, float64(attempt))) * BackoffBase`,
capped at `BackoffMax`.  `math.Pow(2, n)` is integer-exact and the `int64`
product does not overflow on the range reachable from the validated
configuration (`attempt ≤ maxRetries ≤ 10`), so natural-number arithmetic
coincides with the source there. -/
def calculateBackoff (cfg : RetryConfig) (attempt : Nat) : Nat :=
  let backoff := 2 ^ attempt * cfg.backoffBase
  if backoff > cfg.backoffMax then cfg.backoffMax else backoff

/-- Embeds `RetryEngine.isRetryable` (src/unnamed/part_004 lines 176-209).
`err` and `resp` are the possibly-`nil` results of the delivery function. -/
def isRetryable (cfg : RetryConfig) (err : Option GoError) (resp : Option Response) : Bool :=
  match err with
  | some e =>
    -- Network errors are retryable if configured; the check is the direct
    -- type assertion `err.(net.Error)`, with no unwrapping.
    if cfg.retryOnNetworkErr && e.isNetError then true
    else false
  | none =>
    match resp with
    | some r =>
      if cfg.retryOn5xx && decide (500 ≤ r.statusCode) && decide (r.statusCode < 600) then true
      else if cfg.retryOn429 && decide (r.statusCode = 429) then true
      else if decide (400 ≤ r.statusCode) && decide (r.statusCode < 500) then false
      else false
    | none => false

/-- The outcome of one run of `RetryEngine.Do`: a `(resp, nil)` return, a
`(resp?, err)` return with non-`nil` error, or the nil-pointer dereference
`resp.StatusCode` that the Go code performs when the delivery function
returns `(nil, nil)`. -/
inductive DoResult where
  | ok (resp : Response)
  | fail (resp : Option Response) (err : GoError)
  | panicked

/-- Observable trace of one run of `RetryEngine.Do`: its returned outcome,
the number of invocations of the delivery function, and the list of backoff
durations waited (in order, before attempts 1, 2, ...). -/
structure DoTrace where
  result : DoResult
  calls : Nat
  waits : List Nat

/-- Embeds the loop of `RetryEngine.Do` (src/unnamed/part_004 lines
112-160).  `fn k` is the result of the k-th invocation of the delivery
function (0-indexed); `cancel k` says whether the surrounding context gets
cancelled during the backoff wait before attempt `k`; `fuel` is the number
of loop iterations still permitted (the Go loop runs attempts
`0..maxRetries`, i.e. `maxRetries + 1` iterations); `lastErr`/`lastResp`
carry the values of the previous iteration, used by the exhaustion return
after the loop. -/
def doLoop (cfg : RetryConfig) (cancel : Nat → Bool)
    (fn : Nat → Option Response × Option GoError) :
    Nat → Nat → Option GoError → Option Response → DoTrace
  | 0, _, lastErr, lastResp =>
    -- Loop exhausted: max retries exceeded.
    match lastResp with
    | some r =>
      { result := .fail (some r) (.maxRetriesStatus cfg.maxRetries r.statusCode)
        calls := 0, waits := [] }
    | none =>
      { result := .fail none (.maxRetriesErr cfg.maxRetries lastErr)
        calls := 0, waits := [] }
  | fuel + 1, attempt, _, _ =>
    -- Wait before retry (skipped on first attempt); the wait is cancellable.
    if attempt > 0 && cancel attempt then
      { result := .fail none .ctxCanceled, calls := 0, waits := [] }
    else
      let waited := if attempt > 0 then [calculateBackoff cfg attempt] else []
      match fn attempt with
      | (resp, err) =>
        match err, resp with
        | none, none =>
          -- `err == nil && resp.StatusCode >= 200` dereferences a nil resp.
          { result := .panicked, calls := 1, waits := waited }
        | none, some r =>
          if 200 ≤ r.statusCode ∧ r.statusCode < 300 then
            { result := .ok r, calls := 1, waits := waited }
          else if isRetryable cfg none (some r) then
            let t := doLoop cfg cancel fn fuel (attempt + 1) none (some r)
            { result := t.result, calls := t.calls + 1, waits := waited ++ t.waits }
          else
            { result := .fail (some r) (.nonRetryableStatus r.statusCode)
              calls := 1, waits := waited }
        | some e, resp =>
          if isRetryable cfg (some e) resp then
            let t := doLoop cfg cancel fn fuel (attempt + 1) (some e) resp
            { result := t.result, calls := t.calls + 1, waits := waited ++ t.waits }
          else
            match resp with
            | some r =>
              { result := .fail (some r) (.nonRetryableStatus r.statusCode)
                calls := 1, waits := waited }
            | none =>
              { result := .fail none (.nonRetryableErr (some e))
                calls := 1, waits := waited }

/-- Embeds `RetryEngine.Do`: run the loop from attempt 0 with
`maxRetries + 1` permitted iterations and no previous results. -/
def doRun (cfg : RetryConfig) (cancel : Nat → Bool)
    (fn : Nat → Option Response × Option GoError) : DoTrace :=
  doLoop cfg cancel fn (cfg.maxRetries + 1) 0 none none

/-- The value returned by `RetryEngine.Do`. -/
def Do (cfg : RetryConfig) (cancel : Nat → Bool)
    (fn : Nat → Option Response × Option GoError) : DoResult :=
  (doRun cfg cancel fn).result

end RetryEngine

/-- An outgoing HTTP request as built by `Client.Post`: the target URL, the
request body, and the header set (Go header canonicalization of key names is
not modelled; keys are compared verbatim). -/
structure Request where
  url : String
  body : String
  headers : List (String × String)
  deriving DecidableEq

/-- Go `req.Header.Set(k, v)`: replace the value of `k` if present,
otherwise append the pair. -/
def setHeader (headers : List (String × String)) (k v : String) : List (String × String) :=
  if headers.any (fun p => p.1 = k) then
    headers.map (fun p => if p.1 = k then (k, v) else p)
  else headers ++ [(k, v)]

/-- `for k, v := range m { req.Header.Set(k, v) }` over a header map,
modelled as an association list in iteration order. -/
def applyHeaders (headers : List (String × String)) (m : List (String × String)) :
    List (String × String) :=
  m.foldl (fun acc p => setHeader acc p.1 p.2) headers

/-- Embeds the `Client` struct of src/unnamed/part_004: the configured
static and environment-derived header maps.  The pooled transport and the
auth manager are supplied per call through `HttpEnv`. -/
structure Client where
  staticHeaders : List (String × String)
  envHeaders : List (String × String)

/-- Outcomes of the external collaborators of one `Client.Post` call:
`http.NewRequestWithContext`, `authManager.Authenticate` (which may rewrite
the request, e.g. set an Authorization header, or fail), and
`httpClient.Do` (the pooled transport). -/
structure HttpEnv where
  newRequest : String → String → Except GoError Request
  authenticate : Request → Except GoError Request
  httpDo : Request → Except GoError Response

/-- The header-composition steps of `Client.Post`: content type, then
static headers, then environment headers (which override static on key
collision). -/
def buildRequest (c : Client) (req : Request) : Request :=
  let req := { req with headers := setHeader req.headers "Content-Type" "application/json" }
  let req := { req with headers := applyHeaders req.headers c.staticHeaders }
  { req with headers := applyHeaders req.headers c.envHeaders }

/-- Embeds `Client.Post` (src/unnamed/part_004 lines 48-79).  Returns the
`(resp, err)` pair of the Go function: exactly one of the two is non-`nil`. -/
def Client.Post (c : Client) (env : HttpEnv) (url body : String) :
    Option Response × Option GoError :=
  match env.newRequest url body with
  | .error e => (none, some (.createRequestFailed e))
  | .ok req =>
    match env.authenticate (buildRequest c req) with
    | .error e => (none, some (.authFailed e))
    | .ok req =>
      match env.httpDo req with
      | .error e => (none, some (.requestFailed e))
      | .ok resp => (some resp, none)

/-- An input record (`opencdc.Record`) as read by the modelled code:
position bytes, key bytes, the two payload variants, and the metadata map.
`none` models a `nil` slice/interface; `some ""` a non-`nil` empty one. -/
structure Record where
  position : Option String
  key : Option String
  payloadBefore : Option String
  payloadAfter : Option String
  metadata : List (String × String)
  deriving DecidableEq

/-- Embeds `generateCorrelationID` (src/unnamed/part_005 lines 165-181).
`freshUUID` stands for the string `uuid.New().String()` would mint on this
call; it is only consulted when both position and key are absent/empty. -/
def generateCorrelationID (freshUUID : String) (record : Record) : String :=
  let fromKey :=
    -- Try to use record key.
    match record.key with
    | some k => if k.length > 0 then k else freshUUID
    | none => freshUUID
  -- Try to use record position as correlation ID.
  match record.position with
  | some p => if p.length > 0 then p else fromKey
  | none => fromKey

/-- The destination configuration fields read by the modelled orchestration
(src/destination/config.go): the payload-selection flag, the endpoint URL,
the retry policy handed to the retry engine, and the header maps handed to
the delivery client. -/
structure DestConfig where
  usePayloadAfter : Bool
  url : String
  retry : RetryConfig
  client : Client

/-- Embeds `Destination.prepareRequestBody` (src/destination/config.go
lines 414-426). -/
def prepareRequestBody (cfg : DestConfig) (record : Record) : Except GoError String :=
  -- Use the After payload (for inserts/updates).
  match cfg.usePayloadAfter, record.payloadAfter with
  | true, some a => .ok a
  | _, _ =>
    -- Fallback to Before payload (for deletes).
    match record.payloadBefore with
    | some b => .ok b
    | none => .error .noPayload

/-- One entry appended to a response sink by the response writer: a
`WriteSuccess` call or a `WriteError` call (the persisted record's error
value and optional response).  Sink-write failures only produce a log line
in the source and never alter control flow, so sink appends are modelled as
infallible. -/
inductive SinkEntry where
  | success (record : Record) (resp : Response)
  | failure (record : Record) (err : GoError) (resp : Option Response)

/-- The outcome of `Destination.Write`: the returned `(count, err)` pair
together with the sequence of sink writes performed, or a propagated panic
from the retry engine. -/
inductive WriteResult where
  | done (count : Nat) (err : Option GoError) (log : List SinkEntry)
  | panicked (log : List SinkEntry)

/-- The sink log of a `WriteResult`. -/
def WriteResult.log : WriteResult → List SinkEntry
  | .done _ _ log => log
  | .panicked log => log

/-- Collaborator outcomes for one `Destination.Write` call: `http i k` gives
the collaborator outcomes of attempt `k` of record `i`, and `cancel i k`
whether the context gets cancelled during the backoff wait before attempt
`k` of record `i`. -/
structure WriteEnv where
  http : Nat → Nat → HttpEnv
  cancel : Nat → Nat → Bool

/-- The delivery closure `func() { return d.httpClient.Post(ctx, d.config.URL, body) }`
that `Destination.Write` hands to `RetryEngine.Do` for record `i`. -/
def recordFn (cfg : DestConfig) (env : WriteEnv) (i : Nat) (body : String) :
    Nat → Option Response × Option GoError :=
  fun attempt => Client.Post cfg.client (env.http i attempt) cfg.url body

/-- The trace of the `RetryEngine.Do` run for record `i` with request `body`. -/
def recordDo (cfg : DestConfig) (env : WriteEnv) (i : Nat) (body : String) :
    RetryEngine.DoTrace :=
  RetryEngine.doRun cfg.retry (env.cancel i) (recordFn cfg env i body)

/-- Embeds the loop of `Destination.Write` (src/destination/config.go lines
350-397): `i` is the index of the current record, `log` the sink writes
performed so far. -/
def writeLoop (cfg : DestConfig) (env : WriteEnv) :
    List Record → Nat → List SinkEntry → WriteResult
  | [], i, log =>
    -- `return len(records), nil`: on full success `i` equals the batch length.
    .done i none log
  | record :: rest, i, log =>
    -- Prepare request body from record payload.
    match prepareRequestBody cfg record with
    | .error e =>
      .done i (some (.prepareFailed e)) (log ++ [.failure record e none])
    | .ok body =>
      -- Send HTTP request with retry logic.
      match (recordDo cfg env i body).result with
      | .fail resp e =>
        .done i (some (.httpRequestFailed e)) (log ++ [.failure record e resp])
      | .panicked => .panicked log
      | .ok resp =>
        -- Route response based on status code.
        if 200 ≤ resp.statusCode ∧ resp.statusCode < 300 then
          writeLoop cfg env rest (i + 1) (log ++ [.success record resp])
        else
          writeLoop cfg env rest (i + 1)
            (log ++ [.failure record (.httpStatusErr resp.statusCode) (some resp)])

/-- Embeds `Destination.Write`. -/
def Write (cfg : DestConfig) (env : WriteEnv) (records : List Record) : WriteResult :=
  writeLoop cfg env records 0 []

/-- Record `i` of a batch is fully processed: its payload extraction
succeeds and the retry engine returns a `(resp, nil)` outcome for it. -/
def recordSucceeds (cfg : DestConfig) (env : WriteEnv) (i : Nat) (record : Record) : Prop :=
  ∃ body r, prepareRequestBody cfg record = .ok body ∧
    (recordDo cfg env i body).result = .ok r

/-- Record `i` of a batch fails: payload extraction fails, or the retry
engine returns a non-`nil` error for it. -/
def recordFails (cfg : DestConfig) (env : WriteEnv) (i : Nat) (record : Record) : Prop :=
  (∃ e, prepareRequestBody cfg record = .error e) ∨
  (∃ body ro e, prepareRequestBody cfg record = .ok body ∧
    (recordDo cfg env i body).result = .fail ro e)

/-- What `Destination.Write` reports for the failing record: both the
returned wrapped error and the entry routed to the error sink carry the
underlying error — the payload-extraction error (no network call made), or
the final error of the retry engine (with its last response, if any). -/
def failureOutcome (cfg : DestConfig) (env : WriteEnv) (i : Nat) (record : Record)
    (eWrap : GoError) (entry : SinkEntry) : Prop :=
  (∃ e, prepareRequestBody cfg record = .error e ∧ eWrap = .prepareFailed e ∧
    entry = .failure record e none) ∨
  (∃ body ro e, prepareRequestBody cfg record = .ok body ∧
    (recordDo cfg env i body).result = .fail ro e ∧ eWrap = .httpRequestFailed e ∧
    entry = .failure record e ro)

/-- The error classes `Client.Post` itself can return: request-construction
failure, authentication failure, transport failure. -/
def GoError.isClientPostFailure (e : GoError) : Prop :=
  (∃ inner, e = .createRequestFailed inner) ∨ (∃ inner, e = .authFailed inner) ∨
  (∃ inner, e = .requestFailed inner)

/-- The repository's default retry policy (src/destination/config.go lines
59-64): 3 retries, 1s base, 30s cap, all three toggles on. -/
def stdRetryConfig : RetryConfig :=
  { maxRetries := 3
    backoffBase := 1000000000
    backoffMax := 30000000000
    retryOn5xx := true
    retryOn429 := true
    retryOnNetworkErr := true }

/-- A delivery client with no configured headers. -/
def stdClient : Client := { staticHeaders := [], envHeaders := [] }

/-- Collaborator outcomes for a host that refuses every connection:
request construction and authentication succeed, the transport fails with a
`net.Error` (as Go's `http.Client.Do` reports for a refused connection). -/
def refusedEnv : HttpEnv :=
  { newRequest := fun u b => .ok { url := u, body := b, headers := [] }
    authenticate := fun r => .ok r
    httpDo := fun _ => .error (.netErr "connection refused") }

/-- Collaborator outcomes for an endpoint that answers every request with
status 200. -/
def okEnv : HttpEnv :=
  { newRequest := fun u b => .ok { url := u, body := b, headers := [] }
    authenticate := fun r => .ok r
    httpDo := fun _ => .ok { statusCode := 200 } }

/-- A record carrying position, key AND a metadata correlation field, to
probe the correlation-ID precedence. -/
def metaRecord : Record :=
  { position := some "pos-7"
    key := some "key-9"
    payloadBefore := none
    payloadAfter := none
    metadata := [("correlation_id", "meta-42")] }

/-- A record with both payloads present. -/
def bothPayloadsRecord : Record :=
  { position := some "p1"
    key := none
    payloadBefore := some "B"
    payloadAfter := some "A"
    metadata := [] }

/-- A record with no payload at all. -/
def noPayloadRecord : Record :=
  { position := some "p2"
    key := none
    payloadBefore := none
    payloadAfter := none
    metadata := [] }

/-- A destination configuration using the default retry policy against a
fixed endpoint. -/
def stdDestConfig : DestConfig :=
  { usePayloadAfter := true
    url := "http://example.com/hook"
    retry := stdRetryConfig
    client := stdClient }

/-- A batch environment whose every attempt of every record gets a 200. -/
def okWriteEnv : WriteEnv :=
  { http := fun _ _ => okEnv
    cancel := fun _ _ => false }

namespace RetryEngine

/-- The only `(resp, nil)` return of the retry loop is the guarded success
branch, so an `ok` outcome always carries a 2xx status. -/
theorem doLoop_ok_2xx (cfg : RetryConfig) (cancel : Nat → Bool)
    (fn : Nat → Option Response × Option GoError) :
    ∀ (fuel attempt : Nat) (le : Option GoError) (lr : Option Response) (r : Response),
      (doLoop cfg cancel fn fuel attempt le lr).result = .ok r →
      200 ≤ r.statusCode ∧ r.statusCode < 300 := by
  intro fuel
  induction fuel with
  | zero =>
    intro attempt le lr r h
    cases lr <;> simp [doLoop] at h
  | succ n ih =>
    intro attempt le lr r h
    rw [doLoop] at h
    split at h
    · simp at h
    · rcases hfn : fn attempt with ⟨resp, err⟩
      rw [hfn] at h
      rcases err with _ | e
      · rcases resp with _ | r'
        · simp at h
        · simp only at h
          split at h
          · next hcond =>
            simp at h
            subst h
            exact hcond
          · split at h
            · simp only at h
              exact ih _ _ _ _ h
            · simp at h
      · simp only at h
        split at h
        · simp only at h
          exact ih _ _ _ _ h
        · cases resp <;> simp at h

/-- Every error returned by the retry loop is built at one of its own
`fmt.Errorf` call sites or is `ctx.Err()`. -/
theorem doLoop_fail_shape (cfg : RetryConfig) (cancel : Nat → Bool)
    (fn : Nat → Option Response × Option GoError) :
    ∀ (fuel attempt : Nat) (le : Option GoError) (lr : Option Response)
      (ro : Option Response) (e : GoError),
      (doLoop cfg cancel fn fuel attempt le lr).result = .fail ro e →
      (∃ s, e = .nonRetryableStatus s) ∨ (∃ oe, e = .nonRetryableErr oe) ∨
      (∃ m s, e = .maxRetriesStatus m s) ∨ (∃ m oe, e = .maxRetriesErr m oe) ∨
      e = .ctxCanceled := by
  intro fuel
  induction fuel with
  | zero =>
    intro attempt le lr ro e h
    cases lr <;> simp [doLoop] at h
    · exact Or.inr (Or.inr (Or.inr (Or.inl ⟨cfg.maxRetries, le, h.2.symm⟩)))
    · exact Or.inr (Or.inr (Or.inl ⟨cfg.maxRetries, _, h.2.symm⟩))
  | succ n ih =>
    intro attempt le lr ro e h
    rw [doLoop] at h
    split at h
    · simp at h
      exact Or.inr (Or.inr (Or.inr (Or.inr h.2.symm)))
    · rcases hfn : fn attempt with ⟨resp, err⟩
      rw [hfn] at h
      rcases err with _ | e'
      · rcases resp with _ | r'
        · simp at h
        · simp only at h
          split at h
          · simp at h
          · split at h
            · simp only at h
              exact ih _ _ _ _ _ h
            · simp at h
              exact Or.inl ⟨r'.statusCode, h.2.symm⟩
      · simp only at h
        split at h
        · simp only at h
          exact ih _ _ _ _ _ h
        · rcases resp with _ | r'
          · simp at h
            exact Or.inr (Or.inl ⟨some e', h.2.symm⟩)
          · simp at h
            exact Or.inl ⟨r'.statusCode, h.2.symm⟩

/-- A delivery function that never returns `(nil, nil)` never makes the
retry loop dereference a nil response. -/
theorem doLoop_no_panic (cfg : RetryConfig) (cancel : Nat → Bool)
    (fn : Nat → Option Response × Option GoError)
    (hfn : ∀ k, fn k ≠ (none, none)) :
    ∀ (fuel attempt : Nat) (le : Option GoError) (lr : Option Response),
      (doLoop cfg cancel fn fuel attempt le lr).result ≠ .panicked := by
  intro fuel
  induction fuel with
  | zero =>
    intro attempt le lr h
    cases lr <;> simp [doLoop] at h
  | succ n ih =>
    intro attempt le lr h
    rw [doLoop] at h
    split at h
    · simp at h
    · rcases hf : fn attempt with ⟨resp, err⟩
      rw [hf] at h
      rcases err with _ | e'
      · rcases resp with _ | r'
        · exact hfn attempt hf
        · simp only at h
          split at h
          · simp at h
          · split at h
            · simp only at h
              exact ih _ _ _ h
            · simp at h
      · simp only at h
        split at h
        · simp only at h
          exact ih _ _ _ h
        · cases resp <;> simp at h

end RetryEngine

/-- C1 (code bug exhibit): with every retry toggle on (`retryOnTransportError`
= `retryOnNetworkErr` = true) and a delivery attempt that fails with a
transport error, the engine does NOT retry.  The classification check is the
bare type assertion `err.(net.Error)`, but `Client.Post` wraps the
transport error with `fmt.Errorf("request failed: %w", err)`, whose result
does not implement `net.Error`; so the wrapped error is classified
non-retryable and `Do` returns a permanent failure after exactly one
delivery attempt — even though the same classifier would have accepted the
unwrapped error (first conjunct). -/
theorem C1_transport_error_not_retried :
    RetryEngine.isRetryable stdRetryConfig (some (.netErr "connection refused")) none = true ∧
    Client.Post stdClient refusedEnv "http://example.com/hook" "{}" =
      (none, some (.requestFailed (.netErr "connection refused"))) ∧
    RetryEngine.isRetryable stdRetryConfig
      (some (.requestFailed (.netErr "connection refused"))) none = false ∧
    (RetryEngine.doRun stdRetryConfig (fun _ => false)
      (fun _ => Client.Post stdClient refusedEnv "http://example.com/hook" "{}")).calls = 1 ∧
    RetryEngine.Do stdRetryConfig (fun _ => false)
      (fun _ => Client.Post stdClient refusedEnv "http://example.com/hook" "{}") =
      .fail none (.nonRetryableErr (some (.requestFailed (.netErr "connection refused")))) :=
  ⟨rfl, rfl, rfl, rfl, rfl⟩

/-- C2 (counterexample): on a record whose metadata carries a correlation
field AND whose position is set, the derived correlation ID equals the
position, not the metadata field's value — `generateCorrelationID` never
consults metadata. -/
theorem C2_metadata_ignored_counterexample :
    metaRecord.metadata = [("correlation_id", "meta-42")] ∧
    generateCorrelationID "uuid-1" metaRecord = "pos-7" ∧
    generateCorrelationID "uuid-1" metaRecord ≠ "meta-42" :=
  ⟨rfl, rfl, by decide⟩

/-- C2 (amended): the correlation ID is the record position when that is
non-nil and non-empty; else the record key bytes when those are non-nil and
non-empty; else exactly the UUID freshly generated by this call (so two
calls receiving distinct fresh UUIDs produce distinct IDs).  Metadata never
participates. -/
theorem C2_amended_correlation_precedence (freshUUID : String) (record : Record) :
    (∀ p, record.position = some p → 0 < p.length →
      generateCorrelationID freshUUID record = p) ∧
    ((record.position = none ∨ record.position = some "") →
      ∀ k, record.key = some k → 0 < k.length →
        generateCorrelationID freshUUID record = k) ∧
    ((record.position = none ∨ record.position = some "") →
      (record.key = none ∨ record.key = some "") →
      generateCorrelationID freshUUID record = freshUUID) ∧
    (∀ u₁ u₂, u₁ ≠ u₂ →
      (record.position = none ∨ record.position = some "") →
      (record.key = none ∨ record.key = some "") →
      generateCorrelationID u₁ record ≠ generateCorrelationID u₂ record) ∧
    (∀ m, generateCorrelationID freshUUID { record with metadata := m } =
      generateCorrelationID freshUUID record) := by
  refine ⟨?_, ?_, ?_, ?_, ?_⟩
  · intro p hp hlen
    simp [generateCorrelationID, hp, hlen]
  · rintro (hp | hp) k hk hlen <;>
      simp [generateCorrelationID, hp, hk, hlen]
  · rintro (hp | hp) (hk | hk) <;>
      simp [generateCorrelationID, hp, hk]
  · intro u₁ u₂ hu hp hk
    have h₁ : generateCorrelationID u₁ record = u₁ := by
      rcases hp with hp | hp <;> rcases hk with hk | hk <;>
        simp [generateCorrelationID, hp, hk]
    have h₂ : generateCorrelationID u₂ record = u₂ := by
      rcases hp with hp | hp <;> rcases hk with hk | hk <;>
        simp [generateCorrelationID, hp, hk]
    rw [h₁, h₂]
    exact hu
  · intro m
    simp [generateCorrelationID]

/-- C2 amended, exercised: position wins over key, key over the fresh UUID,
and the UUID is returned verbatim when both are absent. -/
theorem C2_amended_correlation_precedence_witness :
    generateCorrelationID "uuid-1" metaRecord = "pos-7" ∧
    generateCorrelationID "uuid-1"
      { position := none, key := some "key-9", payloadBefore := none,
        payloadAfter := none, metadata := [] } = "key-9" ∧
    generateCorrelationID "uuid-1"
      { position := some "", key := none, payloadBefore := none,
        payloadAfter := none, metadata := [] } = "uuid-1" := by
  refine ⟨?_, ?_, ?_⟩
  · exact (C2_amended_correlation_precedence "uuid-1" metaRecord).1 "pos-7" rfl (by decide)
  · exact (C2_amended_correlation_precedence "uuid-1" _).2.1 (Or.inl rfl) "key-9" rfl (by decide)
  · exact (C2_amended_correlation_precedence "uuid-1" _).2.2.1 (Or.inr rfl) (Or.inl rfl)

/-- C3: the backoff before upcoming (1-based) attempt `n` equals
`min(backoffCap, backoffBase * 2^n)`; when the cap admits it the wait
before the first retry is `2 * backoffBase`; and with base = 1s, cap = 30s
the waits for attempts 1..6 are 2s, 4s, 8s, 16s, 30s, 30s. -/
theorem C3_backoff_formula (cfg : RetryConfig) (n : Nat) :
    RetryEngine.calculateBackoff cfg n = min cfg.backoffMax (2 ^ n * cfg.backoffBase) ∧
    (2 * cfg.backoffBase ≤ cfg.backoffMax →
      RetryEngine.calculateBackoff cfg 1 = 2 * cfg.backoffBase) ∧
    (List.range 6).map (fun k => RetryEngine.calculateBackoff stdRetryConfig (k + 1)) =
      [2000000000, 4000000000, 8000000000, 16000000000, 30000000000, 30000000000] := by
  refine ⟨?_, ?_, by decide⟩
  · show (if 2 ^ n * cfg.backoffBase > cfg.backoffMax then cfg.backoffMax
          else 2 ^ n * cfg.backoffBase) = _
    rcases le_or_lt (2 ^ n * cfg.backoffBase) cfg.backoffMax with h | h
    · rw [if_neg (by omega), Nat.min_eq_right h]
    · rw [if_pos h, Nat.min_eq_left (le_of_lt h)]
  · intro h
    show (if 2 ^ 1 * cfg.backoffBase > cfg.backoffMax then cfg.backoffMax
          else 2 ^ 1 * cfg.backoffBase) = _
    rw [if_neg (by omega)]
    ring

/-- C3, exercised at the default policy: the formula at attempt 5 caps at
30s, and with cap 30s ≥ 2s the first retry waits exactly 2·base = 2s. -/
theorem C3_backoff_formula_witness :
    RetryEngine.calculateBackoff stdRetryConfig 5 =
      min 30000000000 (2 ^ 5 * 1000000000) ∧
    RetryEngine.calculateBackoff stdRetryConfig 1 = 2 * 1000000000 := by
  constructor
  · exact (C3_backoff_formula stdRetryConfig 5).1
  · exact (C3_backoff_formula stdRetryConfig 1).2.1 (by norm_num [stdRetryConfig])

/-- A status in [400, 500) other than 429 — or equal to 429 with the 429
toggle off — is never classified retryable, whatever the other flags. -/
theorem isRetryable_4xx_false (cfg : RetryConfig) (r : Response)
    (h400 : 400 ≤ r.statusCode) (h500 : r.statusCode < 500)
    (h429 : r.statusCode = 429 → cfg.retryOn429 = false) :
    RetryEngine.isRetryable cfg none (some r) = false := by
  have h1 : decide (500 ≤ r.statusCode) = false := by simp; omega
  by_cases h : r.statusCode = 429
  · have h4 : cfg.retryOn429 = false := h429 h
    simp [RetryEngine.isRetryable, h1, h4]
  · have h4 : decide (r.statusCode = 429) = false := by simp [h]
    simp [RetryEngine.isRetryable, h1, h4]

/-- C5: on a response with status in [400,500) other than 429 — and on a
429 when `retryOn429` is off — the retry engine performs exactly one
delivery attempt and immediately returns it as a permanent (non-retried)
failure, whatever the policy's other flags. -/
theorem C5_4xx_immediate_permanent_failure (cfg : RetryConfig) (cancel : Nat → Bool)
    (fn : Nat → Option Response × Option GoError) (r : Response)
    (hf : fn 0 = (some r, none))
    (h400 : 400 ≤ r.statusCode) (h500 : r.statusCode < 500)
    (h429 : r.statusCode = 429 → cfg.retryOn429 = false) :
    (RetryEngine.doRun cfg cancel fn).calls = 1 ∧
    RetryEngine.Do cfg cancel fn = .fail (some r) (.nonRetryableStatus r.statusCode) := by
  have hretry := isRetryable_4xx_false cfg r h400 h500 h429
  have hn2 : ¬(200 ≤ r.statusCode ∧ r.statusCode < 300) := by omega
  have key : RetryEngine.doRun cfg cancel fn =
      { result := .fail (some r) (.nonRetryableStatus r.statusCode)
        calls := 1, waits := [] } := by
    unfold RetryEngine.doRun
    simp only [RetryEngine.doLoop, hf]
    simp [hn2, hretry]
  exact ⟨by rw [key], by unfold RetryEngine.Do; rw [key]⟩

/-- C5, exercised: a 404 with every toggle on, and a 429 with the 429
toggle off, each cost exactly one call and return a permanent failure. -/
theorem C5_4xx_immediate_permanent_failure_witness :
    (RetryEngine.doRun stdRetryConfig (fun _ => false)
      (fun _ => (some { statusCode := 404 }, none))).calls = 1 ∧
    RetryEngine.Do stdRetryConfig (fun _ => false)
      (fun _ => (some { statusCode := 404 }, none)) =
      .fail (some { statusCode := 404 }) (.nonRetryableStatus 404) ∧
    (RetryEngine.doRun { stdRetryConfig with retryOn429 := false } (fun _ => false)
      (fun _ => (some { statusCode := 429 }, none))).calls = 1 ∧
    RetryEngine.Do { stdRetryConfig with retryOn429 := false } (fun _ => false)
      (fun _ => (some { statusCode := 429 }, none)) =
      .fail (some { statusCode := 429 }) (.nonRetryableStatus 429) := by
  have h404 := C5_4xx_immediate_permanent_failure stdRetryConfig (fun _ => false)
    (fun _ => (some { statusCode := 404 }, none)) { statusCode := 404 }
    rfl (by decide) (by decide) (by intro h; simp at h)
  have h429 := C5_4xx_immediate_permanent_failure
    { stdRetryConfig with retryOn429 := false } (fun _ => false)
    (fun _ => (some { statusCode := 429 }, none)) { statusCode := 429 }
    rfl (by decide) (by decide) (by intro h; rfl)
  exact ⟨h404.1, h404.2, h429.1, h429.2⟩

/-- C7: `Client.Post` returns a non-`nil` error only for a
request-construction failure, an authentication failure, or a transport
failure; whenever the transport hands back a response — whatever its
status — `Post` returns it unchanged with a `nil` error. -/
theorem C7_post_error_classification (c : Client) (env : HttpEnv) (url body : String) :
    (∀ e, (Client.Post c env url body).2 = some e → e.isClientPostFailure) ∧
    (∀ r, (Client.Post c env url body).1 = some r →
      Client.Post c env url body = (some r, none) ∧ ∃ req, env.httpDo req = .ok r) := by
  rcases hn : env.newRequest url body with e | req
  · have hpost : Client.Post c env url body = (none, some (.createRequestFailed e)) := by
      unfold Client.Post
      rw [hn]
    constructor
    · intro e' h
      rw [hpost] at h
      simp at h
      subst h
      exact Or.inl ⟨e, rfl⟩
    · intro r h
      rw [hpost] at h
      simp at h
  · rcases ha : env.authenticate (buildRequest c req) with e | req₂
    · have hpost : Client.Post c env url body = (none, some (.authFailed e)) := by
        simp only [Client.Post, hn, ha]
      constructor
      · intro e' h
        rw [hpost] at h
        simp at h
        subst h
        exact Or.inr (Or.inl ⟨e, rfl⟩)
      · intro r h
        rw [hpost] at h
        simp at h
    · rcases hd : env.httpDo req₂ with e | resp
      · have hpost : Client.Post c env url body = (none, some (.requestFailed e)) := by
          simp only [Client.Post, hn, ha, hd]
        constructor
        · intro e' h
          rw [hpost] at h
          simp at h
          subst h
          exact Or.inr (Or.inr ⟨e, rfl⟩)
        · intro r h
          rw [hpost] at h
          simp at h
      · have hpost : Client.Post c env url body = (some resp, none) := by
          simp only [Client.Post, hn, ha, hd]
        constructor
        · intro e' h
          rw [hpost] at h
          simp at h
        · intro r h
          rw [hpost] at h
          simp at h
          subst h
          exact ⟨hpost, req₂, hd⟩

/-- C7, exercised: a refused connection surfaces as a transport-failure
error class, and a 500 response comes back with a `nil` error. -/
theorem C7_post_error_classification_witness :
    GoError.isClientPostFailure (.requestFailed (.netErr "connection refused")) ∧
    Client.Post stdClient
      { okEnv with httpDo := fun _ => .ok { statusCode := 500 } }
      "http://example.com/hook" "{}" = (some { statusCode := 500 }, none) := by
  constructor
  · exact (C7_post_error_classification stdClient refusedEnv "http://example.com/hook" "{}").1
      (.requestFailed (.netErr "connection refused")) rfl
  · exact ((C7_post_error_classification stdClient
      { okEnv with httpDo := fun _ => .ok { statusCode := 500 } }
      "http://example.com/hook" "{}").2 { statusCode := 500 } rfl).1

/-- C10: when `usePayloadAfter` is false — or the After payload is absent —
`prepareRequestBody` ignores After entirely: it yields the Before payload
when present and the no-payload error otherwise; the After payload is
consumed exactly when the flag is set and After is non-nil. -/
theorem C10_payload_selection (cfg : DestConfig) (record : Record) :
    (cfg.usePayloadAfter = false →
      prepareRequestBody cfg record =
        (match record.payloadBefore with
         | some b => .ok b
         | none => .error .noPayload)) ∧
    (∀ a, cfg.usePayloadAfter = true → record.payloadAfter = some a →
      prepareRequestBody cfg record = .ok a) := by
  constructor
  · intro hflag
    unfold prepareRequestBody
    rw [hflag]
  · intro a hflag ha
    unfold prepareRequestBody
    rw [hflag, ha]

/-- C10, exercised: with the flag off and both payloads present the Before
payload is chosen; with the flag on the After payload is chosen. -/
theorem C10_payload_selection_witness :
    prepareRequestBody { stdDestConfig with usePayloadAfter := false } bothPayloadsRecord =
      .ok "B" ∧
    prepareRequestBody stdDestConfig bothPayloadsRecord = .ok "A" := by
  constructor
  · exact (C10_payload_selection { stdDestConfig with usePayloadAfter := false }
      bothPayloadsRecord).1 rfl
  · exact (C10_payload_selection stdDestConfig bothPayloadsRecord).2 "A" rfl rfl

/-- When every delivery attempt yields a 500 response and `retryOn5xx` is
on, the retry loop burns all its fuel — one delivery call per permitted
iteration — and ends in the max-retries-exceeded return carrying the last
500 response. -/
theorem doLoop_all_500_exhausts (cfg : RetryConfig) (cancel : Nat → Bool)
    (fn : Nat → Option Response × Option GoError)
    (hc : ∀ k, cancel k = false)
    (hf : ∀ k, ∃ r, fn k = (some r, none) ∧ r.statusCode = 500)
    (h5 : cfg.retryOn5xx = true) :
    ∀ (fuel attempt : Nat) (le : Option GoError) (lr : Option Response),
      (fuel = 0 → ∃ r, lr = some r ∧ r.statusCode = 500) →
      (RetryEngine.doLoop cfg cancel fn fuel attempt le lr).calls = fuel ∧
      ∃ r, r.statusCode = 500 ∧
        (RetryEngine.doLoop cfg cancel fn fuel attempt le lr).result =
          .fail (some r) (.maxRetriesStatus cfg.maxRetries 500) := by
  intro fuel
  induction fuel with
  | zero =>
    intro attempt le lr hlr
    obtain ⟨r, hlr', h500⟩ := hlr rfl
    subst hlr'
    refine ⟨rfl, r, h500, ?_⟩
    simp [RetryEngine.doLoop, h500]
  | succ n ih =>
    intro attempt le lr _
    obtain ⟨r, hfk, h500⟩ := hf attempt
    have hretry : RetryEngine.isRetryable cfg none (some r) = true := by
      simp [RetryEngine.isRetryable, h5, h500]
    have hn2 : ¬(200 ≤ r.statusCode ∧ r.statusCode < 300) := by omega
    have step : RetryEngine.doLoop cfg cancel fn (n + 1) attempt le lr =
        { result := (RetryEngine.doLoop cfg cancel fn n (attempt + 1) none (some r)).result
          calls := (RetryEngine.doLoop cfg cancel fn n (attempt + 1) none (some r)).calls + 1
          waits := (if attempt > 0 then [RetryEngine.calculateBackoff cfg attempt] else []) ++
            (RetryEngine.doLoop cfg cancel fn n (attempt + 1) none (some r)).waits } := by
      simp only [RetryEngine.doLoop, hc attempt, hfk]
      simp [hn2, hretry]
    obtain ⟨hcalls, r', h500', hres⟩ := ih (attempt + 1) none (some r)
      (fun _ => ⟨r, rfl, h500⟩)
    rw [step]
    exact ⟨by simpa using hcalls, r', h500', by simpa using hres⟩

/-- C4: with `retryOn5xx` on and `maxAttempts = 3`, a delivery function
that always produces a 500 response is invoked exactly 4 times (1 initial
attempt + 3 retries) and `Do` then returns the exhausted-retries outcome:
the last 500 response together with the max-retries-exceeded error. -/
theorem C4_500_exhausts_after_four_attempts (cfg : RetryConfig) (cancel : Nat → Bool)
    (fn : Nat → Option Response × Option GoError)
    (hmax : cfg.maxRetries = 3) (h5 : cfg.retryOn5xx = true)
    (hc : ∀ k, cancel k = false)
    (hf : ∀ k, ∃ r, fn k = (some r, none) ∧ r.statusCode = 500) :
    (RetryEngine.doRun cfg cancel fn).calls = 4 ∧
    ∃ r, r.statusCode = 500 ∧
      RetryEngine.Do cfg cancel fn = .fail (some r) (.maxRetriesStatus 3 500) := by
  obtain ⟨hcalls, r, h500, hres⟩ :=
    doLoop_all_500_exhausts cfg cancel fn hc hf h5 (cfg.maxRetries + 1) 0 none none
      (by omega)
  rw [hmax] at hcalls hres
  constructor
  · show (RetryEngine.doLoop cfg cancel fn (cfg.maxRetries + 1) 0 none none).calls = 4
    rw [hmax]
    exact hcalls
  · refine ⟨r, h500, ?_⟩
    show (RetryEngine.doLoop cfg cancel fn (cfg.maxRetries + 1) 0 none none).result = _
    rw [hmax]
    exact hres

/-- C4, exercised: the default policy (3 retries, 5xx retryable) against a
server that always answers 500 makes exactly 4 calls and exhausts. -/
theorem C4_500_exhausts_after_four_attempts_witness :
    (RetryEngine.doRun stdRetryConfig (fun _ => false)
      (fun _ => (some { statusCode := 500 }, none))).calls = 4 ∧
    ∃ r, r.statusCode = 500 ∧
      RetryEngine.Do stdRetryConfig (fun _ => false)
        (fun _ => (some { statusCode := 500 }, none)) =
        .fail (some r) (.maxRetriesStatus 3 500) :=
  C4_500_exhausts_after_four_attempts stdRetryConfig (fun _ => false)
    (fun _ => (some { statusCode := 500 }, none)) rfl rfl (fun _ => rfl)
    (fun _ => ⟨{ statusCode := 500 }, rfl, rfl⟩)

/-- The only error `prepareRequestBody` can produce is the no-payload
error. -/
theorem prepare_error_shape (cfg : DestConfig) (record : Record) (e : GoError)
    (h : prepareRequestBody cfg record = .error e) : e = .noPayload := by
  rcases hU : cfg.usePayloadAfter <;> rcases hA : record.payloadAfter with _ | a <;>
    rcases hB : record.payloadBefore with _ | b <;>
    simp [prepareRequestBody, hU, hA, hB] at h <;>
    exact h.symm

/-- If a sink log holds no error entry produced by the router's non-2xx
branch of `Destination.Write`, running the write loop on top of it never
adds one: the branch writing `fmt.Errorf("HTTP %d", ...)` to the error sink
is unreachable. -/
theorem writeLoop_no_router_failure (cfg : DestConfig) (env : WriteEnv) :
    ∀ (recs : List Record) (i : Nat) (log : List SinkEntry),
      (∀ record s ro, SinkEntry.failure record (.httpStatusErr s) ro ∉ log) →
      ∀ record s ro,
        SinkEntry.failure record (.httpStatusErr s) ro ∉ (writeLoop cfg env recs i log).log := by
  intro recs
  induction recs with
  | nil =>
    intro i log hlog record s ro
    simpa [writeLoop, WriteResult.log] using hlog record s ro
  | cons rec rest ih =>
    intro i log hlog record s ro
    rcases hp : prepareRequestBody cfg rec with e | body
    · have he := prepare_error_shape cfg rec e hp
      subst he
      simp only [writeLoop, hp, WriteResult.log]
      intro hmem
      rcases List.mem_append.mp hmem with hmem | hmem
      · exact hlog record s ro hmem
      · simp at hmem
    · rcases hr : (recordDo cfg env i body).result with resp | ⟨ro', e⟩ | _
      · have h2xx : 200 ≤ resp.statusCode ∧ resp.statusCode < 300 :=
          RetryEngine.doLoop_ok_2xx cfg.retry (env.cancel i) (recordFn cfg env i body)
            (cfg.retry.maxRetries + 1) 0 none none resp hr
        simp only [writeLoop, hp, hr]
        rw [if_pos h2xx]
        refine ih (i + 1) _ ?_ record s ro
        intro record' s' ro''
        intro hmem
        rcases List.mem_append.mp hmem with hmem | hmem
        · exact hlog record' s' ro'' hmem
        · simp at hmem
      · have hshape := RetryEngine.doLoop_fail_shape cfg.retry (env.cancel i)
          (recordFn cfg env i body) (cfg.retry.maxRetries + 1) 0 none none ro' e hr
        simp only [writeLoop, hp, hr, WriteResult.log]
        intro hmem
        rcases List.mem_append.mp hmem with hmem | hmem
        · exact hlog record s ro hmem
        · rcases hshape with ⟨s', rfl⟩ | ⟨oe, rfl⟩ | ⟨m, s', rfl⟩ | ⟨m, oe, rfl⟩ | rfl <;>
            simp at hmem
      · simp only [writeLoop, hp, hr, WriteResult.log]
        exact hlog record s ro

/-- C9: whenever `RetryEngine.Do` returns a `nil` error the response is
non-nil with a 2xx status; consequently the branch of `Destination.Write`
that routes a non-2xx response after a `nil`-error return of `Do` never
writes anything: no sink log ever holds its `"HTTP %d"` error entry. -/
theorem C9_do_nil_error_2xx_router_branch_unreachable :
    (∀ (cfg : RetryConfig) (cancel : Nat → Bool)
      (fn : Nat → Option Response × Option GoError) (r : Response),
      RetryEngine.Do cfg cancel fn = .ok r → 200 ≤ r.statusCode ∧ r.statusCode < 300) ∧
    (∀ (cfg : DestConfig) (env : WriteEnv) (records : List Record)
      (record : Record) (s : Nat) (ro : Option Response),
      SinkEntry.failure record (.httpStatusErr s) ro ∉ (Write cfg env records).log) := by
  constructor
  · intro cfg cancel fn r h
    exact RetryEngine.doLoop_ok_2xx cfg cancel fn (cfg.maxRetries + 1) 0 none none r h
  · intro cfg env records record s ro
    exact writeLoop_no_router_failure cfg env records 0 [] (by simp) record s ro

/-- C9, exercised: a 204 `ok` outcome of `Do` is certified 2xx, and a
one-record batch against an all-200 endpoint holds no router error entry. -/
theorem C9_do_nil_error_2xx_router_branch_unreachable_witness :
    (200 ≤ (204 : Nat) ∧ (204 : Nat) < 300) ∧
    SinkEntry.failure bothPayloadsRecord (.httpStatusErr 500) none ∉
      (Write stdDestConfig okWriteEnv [bothPayloadsRecord]).log := by
  constructor
  · exact C9_do_nil_error_2xx_router_branch_unreachable.1 stdRetryConfig (fun _ => false)
      (fun _ => (some { statusCode := 204 }, none)) { statusCode := 204 } rfl
  · exact C9_do_nil_error_2xx_router_branch_unreachable.2 stdDestConfig okWriteEnv
      [bothPayloadsRecord] bothPayloadsRecord 500 none

/-- A fully processed head record makes the write loop append exactly one
success entry and move on to the rest of the batch. -/
theorem writeLoop_success_step (cfg : DestConfig) (env : WriteEnv) (rec : Record)
    (rest : List Record) (i : Nat) (log : List SinkEntry)
    (h : recordSucceeds cfg env i rec) :
    ∃ r, writeLoop cfg env (rec :: rest) i log =
      writeLoop cfg env rest (i + 1) (log ++ [.success rec r]) := by
  obtain ⟨body, r, hb, hr⟩ := h
  have h2xx : 200 ≤ r.statusCode ∧ r.statusCode < 300 :=
    RetryEngine.doLoop_ok_2xx cfg.retry (env.cancel i) (recordFn cfg env i body)
      (cfg.retry.maxRetries + 1) 0 none none r hr
  refine ⟨r, ?_⟩
  simp only [writeLoop, hb, hr]
  rw [if_pos h2xx]

/-- A failing head record makes the write loop stop at once: it returns the
current index with the wrapped underlying error, appending exactly the one
error-sink entry for that record. -/
theorem writeLoop_fail_head (cfg : DestConfig) (env : WriteEnv) (rec : Record)
    (rest : List Record) (i : Nat) (log : List SinkEntry)
    (h : recordFails cfg env i rec) :
    ∃ eWrap entry,
      writeLoop cfg env (rec :: rest) i log = .done i (some eWrap) (log ++ [entry]) ∧
      failureOutcome cfg env i rec eWrap entry := by
  rcases h with ⟨e, hp⟩ | ⟨body, ro, e, hp, hr⟩
  · refine ⟨.prepareFailed e, .failure rec e none, ?_, Or.inl ⟨e, hp, rfl, rfl⟩⟩
    simp only [writeLoop, hp]
  · refine ⟨.httpRequestFailed e, .failure rec e ro, ?_,
      Or.inr ⟨body, ro, e, hp, hr, rfl, rfl⟩⟩
    simp only [writeLoop, hp, hr]

/-- A batch whose every record is fully processed drives the write loop to
the final `(len(records), nil)` return, with one success entry per record
appended in order. -/
theorem writeLoop_all_success (cfg : DestConfig) (env : WriteEnv) :
    ∀ (recs : List Record) (i : Nat) (log : List SinkEntry),
      (∀ j rec_j, recs.get? j = some rec_j → recordSucceeds cfg env (i + j) rec_j) →
      ∃ added, writeLoop cfg env recs i log = .done (i + recs.length) none (log ++ added) ∧
        added.length = recs.length := by
  intro recs
  induction recs with
  | nil =>
    intro i log _
    exact ⟨[], by simp [writeLoop], rfl⟩
  | cons rec rest ih =>
    intro i log hsucc
    obtain ⟨r, hstep⟩ := writeLoop_success_step cfg env rec rest i log
      (by simpa using hsucc 0 rec rfl)
    obtain ⟨added, heq, hlen⟩ := ih (i + 1) (log ++ [.success rec r])
      (fun j rec_j hj => by
        have h := hsucc (j + 1) rec_j (by simpa using hj)
        have hn : i + (j + 1) = (i + 1) + j := by omega
        rw [hn] at h
        exact h)
    refine ⟨.success rec r :: added, ?_, by simp [hlen]⟩
    rw [hstep, heq]
    congr 1
    · simp
      omega
    · simp

/-- If records `0..k-1` of the remaining batch are fully processed and
record `k` fails, the write loop returns index `i + k` with the wrapped
underlying error; the sink log gains the `k` success entries of the prefix,
in order, followed by the error entry of the failing record, and nothing
already in the log is removed. -/
theorem writeLoop_first_failure (cfg : DestConfig) (env : WriteEnv) :
    ∀ (recs : List Record) (k i : Nat) (log : List SinkEntry) (rec_k : Record),
      recs.get? k = some rec_k →
      (∀ j rec_j, j < k → recs.get? j = some rec_j → recordSucceeds cfg env (i + j) rec_j) →
      recordFails cfg env (i + k) rec_k →
      ∃ eWrap entry added,
        writeLoop cfg env recs i log = .done (i + k) (some eWrap) (log ++ added ++ [entry]) ∧
        added.length = k ∧
        (∀ j, j < k → ∃ rec_j r, recs.get? j = some rec_j ∧
          added.get? j = some (.success rec_j r)) ∧
        failureOutcome cfg env (i + k) rec_k eWrap entry := by
  intro recs
  induction recs with
  | nil =>
    intro k i log rec_k hk
    simp at hk
  | cons rec rest ih =>
    intro k i log rec_k hk hsucc hfail
    cases k with
    | zero =>
      simp at hk
      subst hk
      rw [Nat.add_zero] at hfail
      obtain ⟨eWrap, entry, heq, hspec⟩ := writeLoop_fail_head cfg env rec rest i log hfail
      refine ⟨eWrap, entry, [], by simpa using heq, rfl, ?_, by simpa using hspec⟩
      intro j hj
      omega
    | succ k' =>
      obtain ⟨r, hstep⟩ := writeLoop_success_step cfg env rec rest i log
        (by simpa using hsucc 0 rec (by omega) rfl)
      obtain ⟨eWrap, entry, added, heq, hlen, hcontent, hspec⟩ :=
        ih k' (i + 1) (log ++ [.success rec r]) rec_k (by simpa using hk)
          (fun j rec_j hj hjg => by
            have h := hsucc (j + 1) rec_j (by omega) (by simpa using hjg)
            have hn : i + (j + 1) = (i + 1) + j := by omega
            rw [hn] at h
            exact h)
          (by
            have hn : i + (k' + 1) = (i + 1) + k' := by omega
            rw [hn] at hfail
            exact hfail)
      have hn : (i + 1) + k' = i + (k' + 1) := by omega
      rw [hn] at heq hspec
      refine ⟨eWrap, entry, .success rec r :: added, ?_, by simp [hlen], ?_, hspec⟩
      · rw [hstep, heq]
        congr 1
        simp
      · intro j hj
        cases j with
        | zero => exact ⟨rec, r, rfl, rfl⟩
        | succ j' =>
          obtain ⟨rec_j, r', hrec, hadd⟩ := hcontent j' (by omega)
          exact ⟨rec_j, r', by simpa using hrec, by simpa using hadd⟩

/-- C8: if every record of the batch is fully processed, `Write` returns
the batch length with a `nil` error (one sink entry per record); if the
records before index `i` are fully processed and record `i` fails (payload
extraction or delivery after retries), `Write` stops there, returning the
failing index `i` as the processed count together with the wrapped
underlying error, and the sink log keeps the `i` success entries already
routed (no rollback) followed by the failing record's error entry. -/
theorem C8_write_batch_semantics (cfg : DestConfig) (env : WriteEnv) (records : List Record) :
    ((∀ i rec, records.get? i = some rec → recordSucceeds cfg env i rec) →
      ∃ log, Write cfg env records = .done records.length none log ∧
        log.length = records.length) ∧
    (∀ i rec, records.get? i = some rec →
      (∀ j recj, j < i → records.get? j = some recj → recordSucceeds cfg env j recj) →
      recordFails cfg env i rec →
      ∃ eWrap entry processed,
        Write cfg env records = .done i (some eWrap) (processed ++ [entry]) ∧
        processed.length = i ∧
        (∀ j, j < i → ∃ recj r, records.get? j = some recj ∧
          processed.get? j = some (.success recj r)) ∧
        failureOutcome cfg env i rec eWrap entry) := by
  constructor
  · intro hsucc
    obtain ⟨added, heq, hlen⟩ := writeLoop_all_success cfg env records 0 []
      (fun j rec_j hj => by simpa using hsucc j rec_j hj)
    exact ⟨added, by simpa using heq, hlen⟩
  · intro i rec hi hsucc hfail
    obtain ⟨eWrap, entry, added, heq, hlen, hcontent, hspec⟩ :=
      writeLoop_first_failure cfg env records i 0 [] rec hi
        (fun j recj hj hjg => by simpa using hsucc j recj hj hjg)
        (by simpa using hfail)
    exact ⟨eWrap, entry, added, by simpa using heq, hlen, hcontent, by simpa using hspec⟩

/-- C8, exercised: a batch of one deliverable record followed by one
payload-less record is reported as 1 processed with the wrapped no-payload
error, the first record's success entry staying in the sink log; a batch of
just the deliverable record returns `(1, nil)`. -/
theorem C8_write_batch_semantics_witness :
    (∃ eWrap entry processed,
      Write stdDestConfig okWriteEnv [bothPayloadsRecord, noPayloadRecord] =
        .done 1 (some eWrap) (processed ++ [entry]) ∧
      processed.length = 1 ∧
      (∀ j, j < 1 → ∃ recj r,
        [bothPayloadsRecord, noPayloadRecord].get? j = some recj ∧
        processed.get? j = some (.success recj r)) ∧
      failureOutcome stdDestConfig okWriteEnv 1 noPayloadRecord eWrap entry) ∧
    (∃ log, Write stdDestConfig okWriteEnv [bothPayloadsRecord] = .done 1 none log ∧
      log.length = 1) := by
  constructor
  · refine (C8_write_batch_semantics stdDestConfig okWriteEnv
      [bothPayloadsRecord, noPayloadRecord]).2 1 noPayloadRecord rfl ?_ (Or.inl ⟨.noPayload, rfl⟩)
    intro j recj hj hjg
    interval_cases j
    simp at hjg
    subst hjg
    exact ⟨"A", { statusCode := 200 }, rfl, rfl⟩
  · refine (C8_write_batch_semantics stdDestConfig okWriteEnv [bothPayloadsRecord]).1 ?_
    intro i rec hi
    rcases i with _ | i
    · simp at hi
      subst hi
      exact ⟨"A", { statusCode := 200 }, rfl, rfl⟩
    · simp at hi

end ConnectorHttp
